import Mathlib

/-!
Shallow embedding of the Sentinel-backed multi-client subsystem of the radix
Redis client library (sentinel.go), together with proofs about it.

Go maps are embedded as association lists whose order records one admissible
(arbitrary) Go map iteration order; Go map insertion appends when the key is
absent.  Go `nil` interface values are embedded as `Option.none`; `Client`
values stored in the map are non-nil in every published state, so map values
are plain handles.  All functions are modelled sequentially: the proc RW lock
serialises the sections we embed, and the proc itself is assumed open (no
close interleaving), which is the regime the claims quantify over.
-/

/-- Node / sentinel addresses (Go strings, `host:port`). -/
abbrev Addr := String

/-- Connection-pool handles (Go `Client` interface values), identified by an
opaque id.  A handle is non-nil by construction. -/
abbrev Client := Nat

/-- Raw sentinel connections (Go `Conn` interface values). -/
abbrev Conn := Nat

/-- Errors produced by the embedded code paths. `dialErr`/`pfErr`/`connErr`
stand for opaque errors coming out of the external collaborators
(`ConnFunc`, `ClientFunc`, `Conn.Do`); the remaining constructors mirror the
errors constructed inside sentinel.go. -/
inductive Err : Type where
  | dialErr (n : Nat)
  | pfErr (n : Nat)
  | noClients
  | malformed (cmd : String) (m : List (String × String))
  | clientCreate (addr : Addr) (inner : Err)
  | connErr (n : Nat)
deriving DecidableEq

/-- Recognises the `fmt.Errorf("malformed %q response: ...")` error of
`sentinelMtoAddr`. -/
def Err.isMalformed : Err → Bool
  | .malformed _ _ => true
  | _ => false

/-- Go `m["k"]` on a `map[string]string`: missing keys read as `""`. -/
def mget (m : List (String × String)) (k : String) : String :=
  (m.lookup k).getD ""

/-- `net.JoinHostPort`: brackets the host when it contains a colon (the
colon test is written on the character list so that it evaluates by
structural recursion). -/
def joinHostPort (host port : String) : String :=
  if host.data.contains ':' then "[" ++ host ++ "]:" ++ port else host ++ ":" ++ port

/-- Go `set[a] = true` on a `map[string]bool` used as a set: appends the
element when absent (association-list embedding of map insertion). -/
def insertAddr (l : List Addr) (a : Addr) : List Addr :=
  if a ∈ l then l else l ++ [a]

/-- The `addrs` set built from a list in `NewSentinel`. -/
def dedupAddrs (l : List Addr) : List Addr :=
  l.foldl insertAddr []

/-- The fields of `Sentinel` that the claims are about (`primAddr`,
`clients`, `sentinelAddrs`, the immutable `initAddrs`). -/
structure SentinelState where
  primAddr : Addr
  clients : List (Addr × Client)
  sentinelAddrs : List Addr
  initAddrs : List Addr

/-- The state `NewSentinel` builds before its bootstrap reconciliation:
`primAddr` is the Go zero value `""`, `clients` is empty,
`sentinelAddrs` is the set of the given addresses. -/
def initialState (init : List Addr) : SentinelState :=
  ⟨"", [], dedupAddrs init, init⟩

/-- First loop of `dialSentinel`: ranges over `sc.sentinelAddrs`, keeping the
last dial error in the named return `err`; returns the first successful
connection.  `acc` is the current value of `err`. -/
def dialLoop1 (cf : Addr → Except Err Conn) : List Addr → Option Err → Sum Conn (Option Err)
  | [], acc => .inr acc
  | a :: rest, _ =>
    match cf a with
    | .ok c => .inl c
    | .error e => dialLoop1 cf rest (some e)

/-- Second loop of `dialSentinel`: ranges over `sc.initAddrs`; a failure's
error goes into the local `initErr` and is dropped. -/
def dialLoop2 (cf : Addr → Except Err Conn) : List Addr → Option Conn
  | [] => none
  | a :: rest =>
    match cf a with
    | .ok c => some c
    | .error _ => dialLoop2 cf rest

/-- `(*Sentinel).dialSentinel`: first the known sentinel addresses, then the
bootstrap `initAddrs`; on total failure the returned error is the last error
of the FIRST loop (the closure's `return err`), bootstrap errors are
suppressed. -/
def dialSentinel (cf : Addr → Except Err Conn) (st : SentinelState) : Option Conn × Option Err :=
  match dialLoop1 cf st.sentinelAddrs none with
  | .inl c => (some c, none)
  | .inr e =>
    match dialLoop2 cf st.initAddrs with
    | some c => (some c, none)
    | none => (none, e)

/-- The `for addr, client = range sc.clients { if addr != sc.primAddr { break } }`
loop of `client` with `addr == ""`: both loop variables are assigned on every
iteration, the loop breaks at the first non-primary key; if every key is the
primary the loop runs to completion leaving the last entry assigned. -/
def scanNonPrim (prim : Addr) : List (Addr × Client) → Option (Addr × Client)
  | [] => none
  | e :: rest =>
    if e.1 ≠ prim then some e
    else
      match scanNonPrim prim rest with
      | none => some e
      | some r => some r

/-- The read-locked section of `(*Sentinel).client`: for `addr == ""` run the
secondary scan, then (whenever `client` is still nil) fall back to
`sc.clients[sc.primAddr]`.  Returns the (possibly loop-overwritten) `addr`
and `client` variables. -/
def clientRLock (addr : Addr) (st : SentinelState) : Addr × Option Client :=
  let p : Addr × Option Client :=
    if addr = "" then
      match scanNonPrim st.primAddr st.clients with
      | none => (addr, none)
      | some e => (e.1, some e.2)
    else (addr, none)
  match p.2 with
  | none => (p.1, st.clients.lookup st.primAddr)
  | some c => (p.1, some c)

/-- Result of one `(*Sentinel).client` call: the returned `(Client, error)`
pair, the state after the call, the pools built by `ClientFunc` during the
call and the pools closed during the call. -/
structure ClientCallResult where
  res : Except Err Client
  state : SentinelState
  created : List Client
  closed : List Client

/-- `(*Sentinel).client`: read-locked lookup, then (when `client` is nil and
`addr` is non-empty) `ClientFunc` construction followed by the write-locked
re-check that installs the new pool or closes it when an entry exists. -/
def clientGo (pf : Addr → Except Err Client) (addr : Addr) (st : SentinelState) :
    ClientCallResult :=
  match clientRLock addr st with
  | (_, some c) => ⟨.ok c, st, [], []⟩
  | (a, none) =>
    if a = "" then ⟨.error .noClients, st, [], []⟩
    else
      match pf a with
      | .error e => ⟨.error e, st, [], []⟩
      | .ok nc =>
        match st.clients.lookup a with
        | some existing => ⟨.ok existing, st, [nc], [nc]⟩
        | none => ⟨.ok nc, { st with clients := st.clients ++ [(a, nc)] }, [nc], []⟩

/-- `DoSecondary` routes through `sc.client(ctx, "")` and performs the action
on the returned client; the embedded function returns that choice. -/
def DoSecondary (pf : Addr → Except Err Client) (st : SentinelState) : ClientCallResult :=
  clientGo pf "" st

/-- `sentinelMtoAddr`: empty or missing `ip`/`port` is a malformed response,
otherwise `net.JoinHostPort(m["ip"], m["port"])`. -/
def sentinelMtoAddr (m : List (String × String)) (cmd : String) : Except Err Addr :=
  if mget m "ip" = "" ∨ mget m "port" = "" then .error (.malformed cmd m)
  else .ok (joinHostPort (mget m "ip") (mget m "port"))

/-- The loop of `ensureClients` that turns the `SENTINEL SLAVES` maps into
keys of `newClients` (values still nil); aborts on the first malformed map. -/
def collectSecAddrs (acc : List Addr) : List (List (String × String)) → Except Err (List Addr)
  | [] => .ok acc
  | m :: rest =>
    match sentinelMtoAddr m "SENTINEL SLAVES" with
    | .error e => .error e
    | .ok a => collectSecAddrs (insertAddr acc a) rest

/-- The `for addr := range newClients` loop of `ensureClients`: calls
`sc.client` for each desired address (threading the state, since `client`
installs pools), filling the values of `newClients`; the first failure aborts
with the `error creating client for %q` wrapper, keeping the state mutated so
far. -/
def ensureLoop (pf : Addr → Except Err Client) :
    SentinelState → List Addr → Option Err × SentinelState × List (Addr × Client)
  | st, [] => (none, st, [])
  | st, a :: rest =>
    let r := clientGo pf a st
    match r.res with
    | .error e => (some (.clientCreate a e), r.state, [])
    | .ok c =>
      let q := ensureLoop pf r.state rest
      (q.1, q.2.1, (a, c) :: q.2.2)

/-- The write-locked commit section of `ensureClients` (plus the close loop
that runs right after the lock is released): every entry of the previous
`sc.clients` whose key is shared with `newClients` is carried forward into
`newClients`, every other previous entry goes onto `toClose`; then
`primAddr` and `clients` are replaced in the same critical section, and the
handles on `toClose` are closed after the commit, in order. -/
def commitStep (st : SentinelState) (newPrim : Addr) (ensured : List (Addr × Client)) :
    SentinelState × List Client :=
  let newKeys := ensured.map Prod.fst
  let merged := ensured.map (fun e =>
    match st.clients.lookup e.1 with
    | some pc => (e.1, pc)
    | none => e)
  let toClose := (st.clients.filter (fun e => !(newKeys.contains e.1))).map Prod.snd
  ({ st with primAddr := newPrim, clients := merged }, toClose)

/-- Result of one `ensureClients` pass: the returned error, the state after
the pass, the handles closed after the commit (in close order), and whether
the write-locked commit ran. -/
structure EnsureClientsResult where
  err : Option Err
  state : SentinelState
  toClose : List Client
  committed : Bool

/-- `(*Sentinel).ensureClients`: one reconciliation pass.  `doResp` is the
outcome of the pipelined `SENTINEL MASTER` / `SENTINEL SLAVES` exchange
(`conn.Do`), giving the two decoded responses on success. -/
def ensureClients (pf : Addr → Except Err Client)
    (doResp : Except Err ((List (String × String)) × (List (List (String × String)))))
    (st : SentinelState) : EnsureClientsResult :=
  match doResp with
  | .error e => ⟨some e, st, [], false⟩
  | .ok (primM, secMM) =>
    match sentinelMtoAddr primM "SENTINEL MASTER" with
    | .error e => ⟨some e, st, [], false⟩
    | .ok newPrimAddr =>
      match collectSecAddrs [newPrimAddr] secMM with
      | .error e => ⟨some e, st, [], false⟩
      | .ok newAddrs =>
        match ensureLoop pf st newAddrs with
        | (some e, st', _) => ⟨some e, st', [], false⟩
        | (none, st', ensured) =>
          match commitStep st' newPrimAddr ensured with
          | (st'', toClose) => ⟨none, st'', toClose, true⟩

/-- `(*Sentinel).ensureSentinelAddrs`: on a successful `SENTINEL SENTINELS`
exchange the new set is `{conn.Addr().String()} ∪ {JoinHostPort(m["ip"], m["port"])}`
with NO validation of the peer maps, committed wholesale under the write
lock. -/
def ensureSentinelAddrs (connAddr : Addr)
    (resp : Except Err (List (List (String × String))))
    (st : SentinelState) : Option Err × SentinelState :=
  match resp with
  | .error e => (some e, st)
  | .ok mm =>
    let addrs := mm.foldl
      (fun acc m => insertAddr acc (joinHostPort (mget m "ip") (mget m "port"))) [connAddr]
    (none, { st with sentinelAddrs := addrs })

/-- The `ReplicaSet` returned by `Clients`; `Primary` is a Go interface value
(nil when never assigned). -/
structure ReplicaSet where
  Primary : Option Client
  Secondaries : List Client

/-- The `for addr, client := range sc.clients` loop of `Clients`, threading
the `rs` accumulator in iteration order. -/
def buildRS (prim : Addr) : List (Addr × Client) → ReplicaSet → ReplicaSet
  | [], rs => rs
  | e :: rest, rs =>
    if e.1 = prim then buildRS prim rest { rs with Primary := some e.2 }
    else buildRS prim rest { rs with Secondaries := rs.Secondaries ++ [e.2] }

/-- `(*Sentinel).Clients`: builds one `ReplicaSet` from `sc.clients` and
returns the single-entry map `{sc.primAddr ↦ rs}`. -/
def ClientsGo (st : SentinelState) : List (Addr × ReplicaSet) :=
  [(st.primAddr, buildRS st.primAddr st.clients ⟨none, []⟩)]

/-- States of a live `Sentinel`: the state right after a successful bootstrap
(`NewSentinel`: `ensureSentinelAddrs` then `ensureClients` on `initialState`,
both succeeding), closed under the mutating operations that can run before
`Close`: reconciliation passes of the control loop (succeeding or not) and
`client` calls made by `Do`/`DoSecondary`/`ensureClients`. -/
inductive Reachable : SentinelState → Prop where
  | boot (init : List Addr) (connAddr : Addr)
      (resp : Except Err (List (List (String × String))))
      (pf : Addr → Except Err Client)
      (doResp : Except Err ((List (String × String)) × (List (List (String × String)))))
      (hs : (ensureSentinelAddrs connAddr resp (initialState init)).1 = none)
      (hc : (ensureClients pf doResp (ensureSentinelAddrs connAddr resp (initialState init)).2).err = none) :
      Reachable (ensureClients pf doResp (ensureSentinelAddrs connAddr resp (initialState init)).2).state
  | stepSentinelAddrs (st : SentinelState) (connAddr : Addr)
      (resp : Except Err (List (List (String × String)))) :
      Reachable st → Reachable (ensureSentinelAddrs connAddr resp st).2
  | stepEnsureClients (st : SentinelState)
      (pf : Addr → Except Err Client)
      (doResp : Except Err ((List (String × String)) × (List (List (String × String))))) :
      Reachable st → Reachable (ensureClients pf doResp st).state
  | stepClient (st : SentinelState) (pf : Addr → Except Err Client) (addr : Addr) :
      Reachable st → Reachable (clientGo pf addr st).state

/-! Association-list helper lemmas (Go map reasoning). -/

theorem lookup_eq_none_keys {α β : Type} [BEq α] [LawfulBEq α]
    {l : List (α × β)} {a : α} (h : a ∉ l.map Prod.fst) : l.lookup a = none := by
  induction l with
  | nil => rfl
  | cons e rest ih =>
    simp only [List.map_cons, List.mem_cons, not_or] at h
    obtain ⟨h1, h2⟩ := h
    obtain ⟨k, v⟩ := e
    simp only [List.lookup]
    have hb : (a == k) = false := beq_eq_false_iff_ne.mpr h1
    rw [hb]
    exact ih h2

theorem lookup_isSome_keys {α β : Type} [BEq α] [LawfulBEq α]
    {l : List (α × β)} {a : α} (h : a ∈ l.map Prod.fst) : (l.lookup a).isSome := by
  induction l with
  | nil => simp at h
  | cons e rest ih =>
    obtain ⟨k, v⟩ := e
    simp only [List.lookup]
    by_cases hk : a = k
    · rw [beq_iff_eq.mpr hk]
      rfl
    · rw [beq_eq_false_iff_ne.mpr hk]
      simp only [List.map_cons, List.mem_cons] at h
      exact ih (h.resolve_left hk)

theorem mem_of_lookup {α β : Type} [BEq α] [LawfulBEq α]
    {l : List (α × β)} {a : α} {b : β} (h : l.lookup a = some b) : (a, b) ∈ l := by
  induction l with
  | nil => simp [List.lookup] at h
  | cons e rest ih =>
    obtain ⟨k, v⟩ := e
    simp only [List.lookup] at h
    by_cases hk : a = k
    · rw [beq_iff_eq.mpr hk] at h
      cases h
      exact hk ▸ List.mem_cons_self _ _
    · rw [beq_eq_false_iff_ne.mpr hk] at h
      exact List.mem_cons_of_mem _ (ih h)

theorem lookup_of_mem_nodup {α β : Type} [BEq α] [LawfulBEq α]
    {l : List (α × β)} {a : α} {b : β}
    (hnd : (l.map Prod.fst).Nodup) (h : (a, b) ∈ l) : l.lookup a = some b := by
  induction l with
  | nil => simp at h
  | cons e rest ih =>
    obtain ⟨k, v⟩ := e
    simp only [List.map_cons, List.nodup_cons] at hnd
    simp only [List.lookup]
    rcases List.mem_cons.mp h with h | h
    · cases h
      rw [beq_iff_eq.mpr rfl]
    · have hk : a ≠ k := by
        intro hak
        exact hnd.1 (hak ▸ (List.mem_map.mpr ⟨(a, b), h, rfl⟩))
      rw [beq_eq_false_iff_ne.mpr hk]
      exact ih hnd.2 h

theorem lookup_append_left {α β : Type} [BEq α] [LawfulBEq α]
    {l l2 : List (α × β)} {a : α} (h : (l.lookup a).isSome) :
    (l ++ l2).lookup a = l.lookup a := by
  induction l with
  | nil => simp [List.lookup] at h
  | cons e rest ih =>
    obtain ⟨k, v⟩ := e
    simp only [List.cons_append, List.lookup]
    by_cases hk : a = k
    · rw [beq_iff_eq.mpr hk]
    · rw [beq_eq_false_iff_ne.mpr hk]
      simp only [List.lookup, beq_eq_false_iff_ne.mpr hk] at h
      exact ih h

theorem count_one_of_nodup_mem {α : Type} [BEq α] [LawfulBEq α]
    {l : List α} {a : α} (hnd : l.Nodup) (h : a ∈ l) : l.count a = 1 := by
  induction l with
  | nil => simp at h
  | cons b rest ih =>
    simp only [List.nodup_cons] at hnd
    rcases List.mem_cons.mp h with h2 | h2
    · subst h2
      rw [List.count_cons_self, List.count_eq_zero.mpr hnd.1]
    · have hab : a ≠ b := by
        intro hab
        subst hab
        exact hnd.1 h2
      rw [List.count_cons_of_ne hab, ih hnd.2 h2]

theorem nodup_map_inj_on {α β : Type} {f : α → β} {l : List α}
    (hnd : (l.map f).Nodup) {x y : α} (hx : x ∈ l) (hy : y ∈ l) (hf : f x = f y) : x = y :=
  (List.nodup_map_iff_inj_on (List.Nodup.of_map f hnd)).mp hnd x hx y hy hf

theorem mem_insertAddr_self (l : List Addr) (a : Addr) : a ∈ insertAddr l a := by
  unfold insertAddr
  split
  · assumption
  · exact List.mem_append_right _ (List.mem_singleton.mpr rfl)

theorem mem_insertAddr_of_mem {l : List Addr} {a : Addr} (b : Addr) (h : a ∈ l) :
    a ∈ insertAddr l b := by
  unfold insertAddr
  split
  · exact h
  · exact List.mem_append_left _ h

/-! Structural lemmas about the embedded operations. -/

theorem clientGo_state (pf : Addr → Except Err Client) (addr : Addr) (st : SentinelState) :
    (clientGo pf addr st).state.primAddr = st.primAddr ∧
    (clientGo pf addr st).state.sentinelAddrs = st.sentinelAddrs ∧
    ∃ ext, (clientGo pf addr st).state.clients = st.clients ++ ext := by
  unfold clientGo
  split
  · exact ⟨rfl, rfl, [], (List.append_nil _).symm⟩
  · split
    · exact ⟨rfl, rfl, [], (List.append_nil _).symm⟩
    · split
      · exact ⟨rfl, rfl, [], (List.append_nil _).symm⟩
      · split
        · exact ⟨rfl, rfl, [], (List.append_nil _).symm⟩
        · exact ⟨rfl, rfl, [_], rfl⟩

theorem ensureLoop_state (pf : Addr → Except Err Client) :
    ∀ (addrs : List Addr) (st : SentinelState),
      (ensureLoop pf st addrs).2.1.primAddr = st.primAddr ∧
      (ensureLoop pf st addrs).2.1.sentinelAddrs = st.sentinelAddrs ∧
      (∃ ext, (ensureLoop pf st addrs).2.1.clients = st.clients ++ ext) ∧
      ((ensureLoop pf st addrs).1 = none →
        (ensureLoop pf st addrs).2.2.map Prod.fst = addrs) := by
  intro addrs
  induction addrs with
  | nil =>
    intro st
    exact ⟨rfl, rfl, ⟨[], (List.append_nil _).symm⟩, fun _ => rfl⟩
  | cons a rest ih =>
    intro st
    obtain ⟨hp, hs, ⟨ext, hc⟩⟩ := clientGo_state pf a st
    simp only [ensureLoop]
    split
    · exact ⟨hp, hs, ⟨ext, hc⟩, fun h => by cases h⟩
    · obtain ⟨hp2, hs2, ⟨ext2, hc2⟩, hk2⟩ := ih (clientGo pf a st).state
      refine ⟨hp2.trans hp, hs2.trans hs, ⟨ext ++ ext2, ?_⟩, fun h => ?_⟩
      · rw [hc2, hc, List.append_assoc]
      · simp only [List.map_cons, hk2 h]

theorem commitStep_keys (st : SentinelState) (newPrim : Addr) (ensured : List (Addr × Client)) :
    ((commitStep st newPrim ensured).1.clients).map Prod.fst = ensured.map Prod.fst := by
  unfold commitStep
  simp only [List.map_map]
  induction ensured with
  | nil => rfl
  | cons e rest ih =>
    simp only [List.map_cons]
    rw [show (Prod.fst ∘ fun e : Addr × Client =>
        match st.clients.lookup e.1 with
        | some pc => (e.1, pc)
        | none => e) e = e.1 from ?_]
    · exact congrArg _ ih
    · cases h : st.clients.lookup e.1 <;> simp [h]

theorem commitStep_primAddr (st : SentinelState) (newPrim : Addr) (ensured : List (Addr × Client)) :
    (commitStep st newPrim ensured).1.primAddr = newPrim := rfl

theorem collect_mem {mm : List (List (String × String))} :
    ∀ {acc res : List Addr} {a : Addr}, a ∈ acc →
      collectSecAddrs acc mm = .ok res → a ∈ res := by
  induction mm with
  | nil =>
    intro acc res a ha h
    cases h
    exact ha
  | cons m rest ih =>
    intro acc res a ha h
    simp only [collectSecAddrs] at h
    split at h
    · cases h
    · exact ih (mem_insertAddr_of_mem _ ha) h

theorem ensureSentinelAddrs_state (connAddr : Addr)
    (resp : Except Err (List (List (String × String)))) (st : SentinelState) :
    (ensureSentinelAddrs connAddr resp st).2.primAddr = st.primAddr ∧
    (ensureSentinelAddrs connAddr resp st).2.clients = st.clients := by
  unfold ensureSentinelAddrs
  split <;> exact ⟨rfl, rfl⟩

theorem ensureClients_error_state (pf : Addr → Except Err Client)
    (doResp : Except Err ((List (String × String)) × (List (List (String × String)))))
    (st : SentinelState) (h : (ensureClients pf doResp st).err ≠ none) :
    (ensureClients pf doResp st).committed = false ∧
    (ensureClients pf doResp st).state.primAddr = st.primAddr ∧
    (ensureClients pf doResp st).state.sentinelAddrs = st.sentinelAddrs ∧
    (ensureClients pf doResp st).toClose = [] ∧
    ∃ ext, (ensureClients pf doResp st).state.clients = st.clients ++ ext := by
  unfold ensureClients at *
  split at h
  · exact ⟨rfl, rfl, rfl, rfl, ⟨[], (List.append_nil _).symm⟩⟩
  · split at h
    · exact ⟨rfl, rfl, rfl, rfl, ⟨[], (List.append_nil _).symm⟩⟩
    · split at h
      · exact ⟨rfl, rfl, rfl, rfl, ⟨[], (List.append_nil _).symm⟩⟩
      · split at h
        · next newAddrs st' rest heq =>
          obtain ⟨hp, hs, hext, _⟩ := ensureLoop_state pf _ st
          rw [heq] at hp hs hext
          exact ⟨rfl, hp, hs, rfl, hext⟩
        · next heq =>
          split at h
          exact absurd rfl h

theorem ensureClients_success_struct (pf : Addr → Except Err Client)
    (doResp : Except Err ((List (String × String)) × (List (List (String × String)))))
    (st : SentinelState) (h : (ensureClients pf doResp st).err = none) :
    ∃ newPrim ensured st',
      ensureClients pf doResp st =
        ⟨none, (commitStep st' newPrim ensured).1, (commitStep st' newPrim ensured).2, true⟩ ∧
      newPrim ∈ ensured.map Prod.fst := by
  cases hd : doResp with
  | error e => simp [ensureClients, hd] at h
  | ok pr =>
    obtain ⟨primM, secMM⟩ := pr
    cases hp : sentinelMtoAddr primM "SENTINEL MASTER" with
    | error e => simp [ensureClients, hd, hp] at h
    | ok newPrim =>
      cases hcol : collectSecAddrs [newPrim] secMM with
      | error e => simp [ensureClients, hd, hp, hcol] at h
      | ok newAddrs =>
        have hkeys : (ensureLoop pf st newAddrs).1 = none →
            (ensureLoop pf st newAddrs).2.2.map Prod.fst = newAddrs :=
          (ensureLoop_state pf newAddrs st).2.2.2
        cases hloop : ensureLoop pf st newAddrs with
        | mk e rest =>
          obtain ⟨st', ensured⟩ := rest
          cases e with
          | some e => simp [ensureClients, hd, hp, hcol, hloop] at h
          | none =>
            refine ⟨newPrim, ensured, st', ?_, ?_⟩
            · simp [ensureClients, hd, hp, hcol, hloop]
            · have hm : newPrim ∈ newAddrs :=
                collect_mem (List.mem_singleton.mpr rfl) hcol
              rw [hloop] at hkeys
              rw [hkeys rfl]
              exact hm

theorem ensureClients_success_prim (pf : Addr → Except Err Client)
    (doResp : Except Err ((List (String × String)) × (List (List (String × String)))))
    (st : SentinelState) (h : (ensureClients pf doResp st).err = none) :
    (((ensureClients pf doResp st).state.clients.lookup
      (ensureClients pf doResp st).state.primAddr).isSome) ∧
    (ensureClients pf doResp st).committed = true := by
  obtain ⟨np, ens, st', heq, hmem⟩ := ensureClients_success_struct pf doResp st h
  rw [heq]
  refine ⟨?_, rfl⟩
  show (((commitStep st' np ens).1.clients.lookup (commitStep st' np ens).1.primAddr)).isSome
  rw [commitStep_primAddr]
  apply lookup_isSome_keys
  rw [commitStep_keys]
  exact hmem

theorem reachable_prim_isSome {st : SentinelState} (h : Reachable st) :
    (st.clients.lookup st.primAddr).isSome := by
  induction h with
  | boot init connAddr resp pf doResp hs hc =>
    exact (ensureClients_success_prim pf doResp _ hc).1
  | stepSentinelAddrs st connAddr resp hr ih =>
    obtain ⟨hp, hcl⟩ := ensureSentinelAddrs_state connAddr resp st
    rw [hp, hcl]
    exact ih
  | stepEnsureClients st pf doResp hr ih =>
    by_cases he : (ensureClients pf doResp st).err = none
    · exact (ensureClients_success_prim pf doResp st he).1
    · obtain ⟨_, hp, _, _, ext, hcl⟩ := ensureClients_error_state pf doResp st he
      rw [hp, hcl, lookup_append_left ih]
      exact ih
  | stepClient st pf addr hr ih =>
    obtain ⟨hp, _, ext, hcl⟩ := clientGo_state pf addr st
    rw [hp, hcl, lookup_append_left ih]
    exact ih

theorem scanNonPrim_finds {prim : Addr} :
    ∀ {l : List (Addr × Client)}, (∃ e ∈ l, e.1 ≠ prim) →
      ∃ e, scanNonPrim prim l = some e ∧ e ∈ l ∧ e.1 ≠ prim := by
  intro l
  induction l with
  | nil => intro h; simp at h
  | cons e rest ih =>
    intro h
    by_cases he : e.1 ≠ prim
    · refine ⟨e, ?_, List.mem_cons_self _ _, he⟩
      simp [scanNonPrim, he]
    · push_neg at he
      obtain ⟨x, hx, hxp⟩ := h
      rcases List.mem_cons.mp hx with hxe | hx2
      · exact absurd (hxe ▸ he) hxp
      · obtain ⟨y, hy1, hy2, hy3⟩ := ih ⟨x, hx2, hxp⟩
        refine ⟨y, ?_, List.mem_cons_of_mem _ hy2, hy3⟩
        simp only [scanNonPrim]
        rw [if_neg (by simp [he]), hy1]

theorem scanNonPrim_all_prim {prim : Addr} :
    ∀ {l : List (Addr × Client)}, l ≠ [] → (∀ e ∈ l, e.1 = prim) →
      ∃ e, scanNonPrim prim l = some e ∧ e ∈ l := by
  intro l
  induction l with
  | nil => intro h _; exact absurd rfl h
  | cons e rest ih =>
    intro _ hall
    have he : e.1 = prim := hall e (List.mem_cons_self _ _)
    rcases Decidable.em (rest = []) with hre | hre
    · subst hre
      exact ⟨e, by simp [scanNonPrim, he], List.mem_cons_self _ _⟩
    · obtain ⟨y, hy1, hy2⟩ := ih hre (fun x hx => hall x (List.mem_cons_of_mem _ hx))
      refine ⟨y, ?_, List.mem_cons_of_mem _ hy2⟩
      simp only [scanNonPrim]
      rw [if_neg (by simp [he]), hy1]

theorem buildRS_secondaries {prim : Addr} :
    ∀ {l : List (Addr × Client)} (rs : ReplicaSet),
      (buildRS prim l rs).Secondaries =
        rs.Secondaries ++ (l.filter (fun e => !(e.1 == prim))).map Prod.snd := by
  intro l
  induction l with
  | nil => intro rs; simp [buildRS]
  | cons e rest ih =>
    intro rs
    by_cases he : e.1 = prim
    · rw [show buildRS prim (e :: rest) rs =
          buildRS prim rest { rs with Primary := some e.2 } from by simp [buildRS, he]]
      rw [ih]
      simp [List.filter_cons, he]
    · rw [show buildRS prim (e :: rest) rs =
          buildRS prim rest { rs with Secondaries := rs.Secondaries ++ [e.2] } from by
            simp [buildRS, he]]
      rw [ih]
      simp [List.filter_cons, beq_eq_false_iff_ne.mpr he]

theorem buildRS_primary {prim : Addr} :
    ∀ {l : List (Addr × Client)} (rs : ReplicaSet), (l.map Prod.fst).Nodup →
      (buildRS prim l rs).Primary =
        (match l.lookup prim with
         | some c => some c
         | none => rs.Primary) := by
  intro l
  induction l with
  | nil => intro rs _; simp [buildRS, List.lookup]
  | cons e rest ih =>
    intro rs hnd
    simp only [List.map_cons, List.nodup_cons] at hnd
    by_cases he : e.1 = prim
    · rw [show buildRS prim (e :: rest) rs =
          buildRS prim rest { rs with Primary := some e.2 } from by simp [buildRS, he]]
      rw [ih _ hnd.2]
      have hrest : rest.lookup prim = none := lookup_eq_none_keys (he ▸ hnd.1)
      rw [hrest]
      obtain ⟨e1, e2⟩ := e
      simp only [List.lookup]
      rw [beq_iff_eq.mpr he.symm]
    · rw [show buildRS prim (e :: rest) rs =
          buildRS prim rest { rs with Secondaries := rs.Secondaries ++ [e.2] } from by
            simp [buildRS, he]]
      rw [ih _ hnd.2]
      obtain ⟨e1, e2⟩ := e
      simp only [List.lookup]
      rw [beq_eq_false_iff_ne.mpr (fun hh => he hh.symm)]

theorem dialLoop1_all_fail (cf : Addr → Except Err Conn) :
    ∀ (l : List Addr) (a : Addr) (e : Err) (acc : Option Err),
      (∀ x ∈ l, ∃ e2, cf x = .error e2) → cf a = .error e →
      dialLoop1 cf (l ++ [a]) acc = .inr (some e) := by
  intro l
  induction l with
  | nil =>
    intro a e acc _ ha
    simp [dialLoop1, ha]
  | cons x rest ih =>
    intro a e acc hall ha
    obtain ⟨ex, hex⟩ := hall x (List.mem_cons_self _ _)
    simp only [List.cons_append, dialLoop1, hex]
    exact ih a e _ (fun y hy => hall y (List.mem_cons_of_mem _ hy)) ha

theorem dialLoop2_all_fail (cf : Addr → Except Err Conn) :
    ∀ (l : List Addr), (∀ x ∈ l, ∃ e2, cf x = .error e2) → dialLoop2 cf l = none := by
  intro l
  induction l with
  | nil => intro _; rfl
  | cons x rest ih =>
    intro hall
    obtain ⟨ex, hex⟩ := hall x (List.mem_cons_self _ _)
    simp only [dialLoop2, hex]
    exact ih (fun y hy => hall y (List.mem_cons_of_mem _ hy))

theorem dialLoop2_first_ok (cf : Addr → Except Err Conn) :
    ∀ (pre : List Addr) (b : Addr) (post : List Addr) (c : Conn),
      (∀ x ∈ pre, ∃ e2, cf x = .error e2) → cf b = .ok c →
      dialLoop2 cf (pre ++ b :: post) = some c := by
  intro pre
  induction pre with
  | nil =>
    intro b post c _ hb
    simp [dialLoop2, hb]
  | cons x rest ih =>
    intro b post c hall hb
    obtain ⟨ex, hex⟩ := hall x (List.mem_cons_self _ _)
    simp only [List.cons_append, dialLoop2, hex]
    exact ih b post c (fun y hy => hall y (List.mem_cons_of_mem _ hy)) hb

theorem sentinelMtoAddr_error_malformed {m : List (String × String)} {cmd : String} {e : Err}
    (h : sentinelMtoAddr m cmd = .error e) : e.isMalformed = true := by
  unfold sentinelMtoAddr at h
  split at h
  · cases h; rfl
  · cases h

theorem sentinelMtoAddr_bad {m : List (String × String)} {cmd : String}
    (h : mget m "ip" = "" ∨ mget m "port" = "") :
    sentinelMtoAddr m cmd = .error (.malformed cmd m) := by
  unfold sentinelMtoAddr
  rw [if_pos h]

theorem collect_bad_elem :
    ∀ {mm : List (List (String × String))} {acc : List Addr},
      (∃ m ∈ mm, mget m "ip" = "" ∨ mget m "port" = "") →
      ∃ e, collectSecAddrs acc mm = .error e ∧ e.isMalformed = true := by
  intro mm
  induction mm with
  | nil => intro acc h; simp at h
  | cons m rest ih =>
    intro acc h
    by_cases hm : mget m "ip" = "" ∨ mget m "port" = ""
    · refine ⟨.malformed "SENTINEL SLAVES" m, ?_, rfl⟩
      simp [collectSecAddrs, sentinelMtoAddr_bad hm]
    · obtain ⟨x, hx, hxb⟩ := h
      rcases List.mem_cons.mp hx with hxm | hx2
      · exact absurd (hxm ▸ hxb) hm
      · cases hp : sentinelMtoAddr m "SENTINEL SLAVES" with
        | error e =>
          exact ⟨e, by simp [collectSecAddrs, hp], sentinelMtoAddr_error_malformed hp⟩
        | ok a =>
          obtain ⟨e, he1, he2⟩ := @ih (insertAddr acc a) ⟨x, hx2, hxb⟩
          exact ⟨e, by simp [collectSecAddrs, hp, he1], he2⟩

theorem dialLoop1_fail_inr (cf : Addr → Except Err Conn) :
    ∀ (l : List Addr) (acc : Option Err),
      (∀ x ∈ l, ∃ e, cf x = .error e) → ∃ s, dialLoop1 cf l acc = .inr s := by
  intro l
  induction l with
  | nil => intro acc _; exact ⟨acc, rfl⟩
  | cons x rest ih =>
    intro acc hall
    obtain ⟨ex, hex⟩ := hall x (List.mem_cons_self _ _)
    simp only [dialLoop1, hex]
    exact ih _ (fun y hy => hall y (List.mem_cons_of_mem _ hy))

theorem foldl_insertAddr_mem_acc (g : List (String × String) → Addr) :
    ∀ (mm : List (List (String × String))) (acc : List Addr) (a : Addr),
      a ∈ acc → a ∈ mm.foldl (fun acc m => insertAddr acc (g m)) acc := by
  intro mm
  induction mm with
  | nil => intro acc a h; exact h
  | cons m rest ih =>
    intro acc a h
    exact ih _ a (mem_insertAddr_of_mem _ h)

theorem foldl_insertAddr_mem_elem (g : List (String × String) → Addr) :
    ∀ (mm : List (List (String × String))) (acc : List Addr) (m : List (String × String)),
      m ∈ mm → g m ∈ mm.foldl (fun acc m => insertAddr acc (g m)) acc := by
  intro mm
  induction mm with
  | nil => intro acc m h; simp at h
  | cons m0 rest ih =>
    intro acc m h
    rcases List.mem_cons.mp h with h | h
    · subst h
      exact foldl_insertAddr_mem_acc g rest _ _ (mem_insertAddr_self _ _)
    · exact ih _ m h

/-! Claim theorems. -/

/-- C1: the claim says `client(addr)` with non-empty `addr` first looks up
`clients[addr]` under the read lock, returning that entry if present, and
only otherwise calls `ClientFunc`, re-checks `clients[addr]` under the write
lock and installs the new pool.  The code's read-locked section never
consults `clients[addr]` at all: it falls back to `clients[primAddr]`, so at
the input below (clients = { "10.0.0.10:6379" ↦ 1 }, primAddr =
"10.0.0.10:6379") a request for the distinct address "10.0.0.11:6379"
returns the primary's pool 1, calls no `ClientFunc` (`created = []`) and
installs nothing — contradicting both the claim and the function's own
comments about creating a pool for an uncreated secondary address. -/
theorem c1_client_ignores_addr :
    clientGo (fun _ => .ok 2) "10.0.0.11:6379"
        ⟨"10.0.0.10:6379", [("10.0.0.10:6379", 1)], [], []⟩ =
      ⟨.ok 1, ⟨"10.0.0.10:6379", [("10.0.0.10:6379", 1)], [], []⟩, [], []⟩ := rfl

/-- C2 (counterexample): a reconciliation pass in which `ClientFunc` fails
for an address of the desired set can leave `clients` mutated.  Bootstrap
state (`primAddr = ""`, `clients = ∅`), desired set {"h:1", "k:2"};
`ClientFunc` succeeds for "h:1" (pool 1, which `client` installs into
`sc.clients` under its write lock) and fails for "k:2": the pass returns an
error, yet `clients` now holds the installed entry — the claim's "the
observable state (... clients ...) is unchanged" is false on the code. -/
theorem c2_counterexample :
    ((ensureClients
        (fun a => if a = "h:1" then .ok 1 else .error (.pfErr 7))
        (.ok ([("ip", "h"), ("port", "1")], [[("ip", "k"), ("port", "2")]]))
        ⟨"", [], [], []⟩).err.isSome = true) ∧
    ((ensureClients
        (fun a => if a = "h:1" then .ok 1 else .error (.pfErr 7))
        (.ok ([("ip", "h"), ("port", "1")], [[("ip", "k"), ("port", "2")]]))
        ⟨"", [], [], []⟩).state.clients = [("h:1", 1)]) :=
  ⟨rfl, rfl⟩

/-- C2 (amended): a failing reconciliation pass (in particular one in which
`ClientFunc` fails for a desired address) returns an error and never reaches
the write-lock commit: `primaryAddr` and `knownSentinelAddrs` are unchanged
and no pool is closed after the pass — but `clients` may retain entries that
`client` installed for addresses processed before the failure (every
previous entry is still present). -/
theorem c2_error_preserves_state (pf : Addr → Except Err Client)
    (doResp : Except Err ((List (String × String)) × (List (List (String × String)))))
    (st : SentinelState) (h : (ensureClients pf doResp st).err ≠ none) :
    (ensureClients pf doResp st).committed = false ∧
    (ensureClients pf doResp st).state.primAddr = st.primAddr ∧
    (ensureClients pf doResp st).state.sentinelAddrs = st.sentinelAddrs ∧
    (ensureClients pf doResp st).toClose = [] ∧
    ∀ e ∈ st.clients, e ∈ (ensureClients pf doResp st).state.clients := by
  obtain ⟨h1, h2, h3, h4, ext, h5⟩ := ensureClients_error_state pf doResp st h
  refine ⟨h1, h2, h3, h4, fun e he => ?_⟩
  rw [h5]
  exact List.mem_append_left _ he

/-- C2 (witness): the amended statement evaluated at the counterexample
input. -/
theorem c2_error_preserves_state_witness :
    ((ensureClients
        (fun a => if a = "h:1" then .ok 1 else .error (.pfErr 7))
        (.ok ([("ip", "h"), ("port", "1")], [[("ip", "k"), ("port", "2")]]))
        ⟨"p:0", [("q:9", 3)], ["s:26379"], ["s:26379"]⟩).err ≠ none) ∧
    ((ensureClients
        (fun a => if a = "h:1" then .ok 1 else .error (.pfErr 7))
        (.ok ([("ip", "h"), ("port", "1")], [[("ip", "k"), ("port", "2")]]))
        ⟨"p:0", [("q:9", 3)], ["s:26379"], ["s:26379"]⟩).committed = false ∧
      (ensureClients
        (fun a => if a = "h:1" then .ok 1 else .error (.pfErr 7))
        (.ok ([("ip", "h"), ("port", "1")], [[("ip", "k"), ("port", "2")]]))
        ⟨"p:0", [("q:9", 3)], ["s:26379"], ["s:26379"]⟩).state.primAddr = "p:0" ∧
      (ensureClients
        (fun a => if a = "h:1" then .ok 1 else .error (.pfErr 7))
        (.ok ([("ip", "h"), ("port", "1")], [[("ip", "k"), ("port", "2")]]))
        ⟨"p:0", [("q:9", 3)], ["s:26379"], ["s:26379"]⟩).state.sentinelAddrs = ["s:26379"] ∧
      (ensureClients
        (fun a => if a = "h:1" then .ok 1 else .error (.pfErr 7))
        (.ok ([("ip", "h"), ("port", "1")], [[("ip", "k"), ("port", "2")]]))
        ⟨"p:0", [("q:9", 3)], ["s:26379"], ["s:26379"]⟩).toClose = [] ∧
      ∀ e ∈ [(("q:9" : Addr), (3 : Client))], e ∈ (ensureClients
        (fun a => if a = "h:1" then .ok 1 else .error (.pfErr 7))
        (.ok ([("ip", "h"), ("port", "1")], [[("ip", "k"), ("port", "2")]]))
        ⟨"p:0", [("q:9", 3)], ["s:26379"], ["s:26379"]⟩).state.clients) :=
  ⟨by decide, c2_error_preserves_state _ _ _ (by decide)⟩

/-- C9: with `knownSentinelAddrs` empty and every bootstrap dial failing,
`dialSentinel` returns a nil connection together with a nil error: the
closure returns the named `err`, which the never-executed first loop never
assigned. -/
theorem c9_dial_nil_nil (cf : Addr → Except Err Conn) (st : SentinelState)
    (h0 : st.sentinelAddrs = [])
    (hinit : ∀ b ∈ st.initAddrs, ∃ e, cf b = .error e) :
    dialSentinel cf st = (none, none) := by
  unfold dialSentinel
  rw [h0, dialLoop2_all_fail cf st.initAddrs hinit]
  rfl

/-- C9 (witness): concrete empty known set with two failing bootstrap
addresses. -/
theorem c9_dial_nil_nil_witness :
    (((⟨"", [], [], ["b1:26379", "b2:26379"]⟩ : SentinelState).sentinelAddrs = []) ∧
      ∀ x ∈ (⟨"", [], [], ["b1:26379", "b2:26379"]⟩ : SentinelState).initAddrs,
        ∃ e, (fun _ => (.error (.dialErr 1) : Except Err Conn)) x = .error e) ∧
    dialSentinel (fun _ => .error (.dialErr 1))
      ⟨"", [], [], ["b1:26379", "b2:26379"]⟩ = (none, none) :=
  ⟨⟨rfl, fun _ _ => ⟨.dialErr 1, rfl⟩⟩,
   c9_dial_nil_nil _ _ rfl (fun _ _ => ⟨.dialErr 1, rfl⟩)⟩

/-- C10: a successful `SENTINEL SENTINELS` reconciliation performs no
validation of the peer maps: it never errors, the committed set always
contains the queried connection's own address and, for every peer map, the
joined `ip:port` string — including the degenerate ":" produced by a map
with missing or empty `ip` and `port` fields. -/
theorem c10_sentinels_no_validation (connAddr : Addr)
    (mm : List (List (String × String))) (st : SentinelState) :
    (ensureSentinelAddrs connAddr (.ok mm) st).1 = none ∧
    connAddr ∈ (ensureSentinelAddrs connAddr (.ok mm) st).2.sentinelAddrs ∧
    (∀ m ∈ mm, joinHostPort (mget m "ip") (mget m "port") ∈
        (ensureSentinelAddrs connAddr (.ok mm) st).2.sentinelAddrs) ∧
    joinHostPort (mget ([] : List (String × String)) "ip")
      (mget ([] : List (String × String)) "port") = ":" := by
  refine ⟨rfl, ?_, fun m hm => ?_, rfl⟩
  · exact foldl_insertAddr_mem_acc _ mm [connAddr] connAddr (List.mem_singleton.mpr rfl)
  · exact foldl_insertAddr_mem_elem
      (fun m => joinHostPort (mget m "ip") (mget m "port")) mm [connAddr] m hm

/-- C4: when every dial of a known sentinel address fails, a totally failing
call returns the last error produced by the `knownSentinelAddrs` loop
(never a bootstrap error), and a bootstrap success after those failures
returns that bootstrap connection with a nil error. -/
theorem c4_dial_fallback (cf : Addr → Except Err Conn) (st : SentinelState)
    (hsent : ∀ a ∈ st.sentinelAddrs, ∃ e, cf a = .error e) :
    (∀ (l : List Addr) (a : Addr) (e : Err), st.sentinelAddrs = l ++ [a] →
        cf a = .error e →
        (∀ b ∈ st.initAddrs, ∃ e2, cf b = .error e2) →
        dialSentinel cf st = (none, some e)) ∧
    (∀ (pre : List Addr) (b : Addr) (post : List Addr) (c : Conn),
        st.initAddrs = pre ++ b :: post →
        (∀ x ∈ pre, ∃ e2, cf x = .error e2) → cf b = .ok c →
        dialSentinel cf st = (some c, none)) := by
  constructor
  · intro l a e hsl ha hinit
    unfold dialSentinel
    rw [hsl, dialLoop1_all_fail cf l a e none
        (fun x hx => hsent x (hsl ▸ List.mem_append_left _ hx)) ha]
    rw [dialLoop2_all_fail cf st.initAddrs hinit]
  · intro pre b post c hi hpre hb
    obtain ⟨s, hs⟩ := dialLoop1_fail_inr cf st.sentinelAddrs none hsent
    unfold dialSentinel
    rw [hs, hi, dialLoop2_first_ok cf pre b post c hpre hb]

/-- C4 (witness): both arms of the fallback at concrete inputs: known set
{"s1:26379", "s2:26379"} all failing with distinct errors; bootstrap
["b:26379"] failing (first arm: the second known address's error is
returned) resp. succeeding with connection 42 (second arm). -/
theorem c4_dial_fallback_witness :
    (dialSentinel
        (fun a => if a = "s1:26379" then .error (.dialErr 1)
          else if a = "s2:26379" then .error (.dialErr 2) else .error (.dialErr 3))
        ⟨"", [], ["s1:26379", "s2:26379"], ["b:26379"]⟩ = (none, some (.dialErr 2))) ∧
    (dialSentinel
        (fun a => if a = "b:26379" then .ok 42 else .error (.dialErr 1))
        ⟨"", [], ["s1:26379", "s2:26379"], ["b:26379"]⟩ = (some 42, none)) :=
  ⟨(c4_dial_fallback
      (fun a => if a = "s1:26379" then .error (.dialErr 1)
        else if a = "s2:26379" then .error (.dialErr 2) else .error (.dialErr 3))
      ⟨"", [], ["s1:26379", "s2:26379"], ["b:26379"]⟩
      (by
        intro a ha
        fin_cases ha
        · exact ⟨.dialErr 1, rfl⟩
        · exact ⟨.dialErr 2, rfl⟩)).1
      ["s1:26379"] "s2:26379" (.dialErr 2) rfl rfl
      (by
        intro b hb
        fin_cases hb
        exact ⟨.dialErr 3, rfl⟩),
   (c4_dial_fallback
      (fun a => if a = "b:26379" then .ok 42 else .error (.dialErr 1))
      ⟨"", [], ["s1:26379", "s2:26379"], ["b:26379"]⟩
      (by
        intro a ha
        fin_cases ha
        · exact ⟨.dialErr 1, rfl⟩
        · exact ⟨.dialErr 1, rfl⟩)).2
      [] "b:26379" [] 42 rfl (by intro x hx; cases hx) rfl⟩

/-- C5: a reconciliation pass whose `SENTINEL MASTER` map or any element of
whose `SENTINEL SLAVES` list has a missing or empty `ip` or `port` returns a
malformed-response error and performs no state change at all (no commit, no
closes, state identical). -/
theorem c5_malformed_aborts (pf : Addr → Except Err Client)
    (primM : List (String × String)) (secMM : List (List (String × String)))
    (st : SentinelState)
    (h : (mget primM "ip" = "" ∨ mget primM "port" = "") ∨
         ∃ m ∈ secMM, mget m "ip" = "" ∨ mget m "port" = "") :
    (∃ e, (ensureClients pf (.ok (primM, secMM)) st).err = some e ∧
      e.isMalformed = true) ∧
    (ensureClients pf (.ok (primM, secMM)) st).state = st ∧
    (ensureClients pf (.ok (primM, secMM)) st).committed = false ∧
    (ensureClients pf (.ok (primM, secMM)) st).toClose = [] := by
  rcases h with h | h
  · have hp := @sentinelMtoAddr_bad primM "SENTINEL MASTER" h
    exact ⟨⟨.malformed "SENTINEL MASTER" primM, by simp [ensureClients, hp], rfl⟩,
      by simp [ensureClients, hp], by simp [ensureClients, hp], by simp [ensureClients, hp]⟩
  · cases hp : sentinelMtoAddr primM "SENTINEL MASTER" with
    | error e =>
      exact ⟨⟨e, by simp [ensureClients, hp], sentinelMtoAddr_error_malformed hp⟩,
        by simp [ensureClients, hp], by simp [ensureClients, hp], by simp [ensureClients, hp]⟩
    | ok np =>
      obtain ⟨e, he, hm⟩ := @collect_bad_elem secMM [np] h
      exact ⟨⟨e, by simp [ensureClients, hp, he], hm⟩,
        by simp [ensureClients, hp, he], by simp [ensureClients, hp, he],
        by simp [ensureClients, hp, he]⟩

/-- C5 (witness): an empty `SENTINEL MASTER` map aborts the pass with a
malformed error and leaves the state untouched. -/
theorem c5_malformed_aborts_witness :
    ((mget ([] : List (String × String)) "ip" = "" ∨
        mget ([] : List (String × String)) "port" = "") ∨
      ∃ m ∈ ([[("ip", "x")]] : List (List (String × String))),
        mget m "ip" = "" ∨ mget m "port" = "") ∧
    ((∃ e, (ensureClients (fun _ => .ok 1) (.ok ([], [[("ip", "x")]]))
        ⟨"p:1", [("p:1", 5)], ["s:26379"], ["s:26379"]⟩).err = some e ∧
        e.isMalformed = true) ∧
      (ensureClients (fun _ => .ok 1) (.ok ([], [[("ip", "x")]]))
        ⟨"p:1", [("p:1", 5)], ["s:26379"], ["s:26379"]⟩).state =
          ⟨"p:1", [("p:1", 5)], ["s:26379"], ["s:26379"]⟩ ∧
      (ensureClients (fun _ => .ok 1) (.ok ([], [[("ip", "x")]]))
        ⟨"p:1", [("p:1", 5)], ["s:26379"], ["s:26379"]⟩).committed = false ∧
      (ensureClients (fun _ => .ok 1) (.ok ([], [[("ip", "x")]]))
        ⟨"p:1", [("p:1", 5)], ["s:26379"], ["s:26379"]⟩).toClose = []) :=
  ⟨Or.inl (Or.inl rfl),
   c5_malformed_aborts (fun _ => .ok 1) [] [[("ip", "x")]]
     ⟨"p:1", [("p:1", 5)], ["s:26379"], ["s:26379"]⟩ (Or.inl (Or.inl rfl))⟩

/-- C7: `Clients` returns a single-entry map keyed by the current
`primAddr`, whose `ReplicaSet` has the primary's client as `Primary` and the
clients of every other key (in iteration order) as `Secondaries`. -/
theorem c7_clients_projection (st : SentinelState) (c : Client)
    (hnd : (st.clients.map Prod.fst).Nodup)
    (hc : st.clients.lookup st.primAddr = some c) :
    ClientsGo st = [(st.primAddr,
      ⟨some c, (st.clients.filter (fun e => !(e.1 == st.primAddr))).map Prod.snd⟩)] := by
  have hP : (buildRS st.primAddr st.clients ⟨none, []⟩).Primary = some c := by
    rw [buildRS_primary _ hnd, hc]
  have hS : (buildRS st.primAddr st.clients ⟨none, []⟩).Secondaries =
      (st.clients.filter (fun e => !(e.1 == st.primAddr))).map Prod.snd := by
    rw [buildRS_secondaries]
    simp
  have heq : buildRS st.primAddr st.clients ⟨none, []⟩ =
      ⟨some c, (st.clients.filter (fun e => !(e.1 == st.primAddr))).map Prod.snd⟩ := by
    cases hb : buildRS st.primAddr st.clients ⟨none, []⟩ with
    | mk P S =>
      rw [hb] at hP hS
      dsimp only at hP hS
      rw [hP, hS]
  unfold ClientsGo
  rw [heq]

/-- C7 (witness): a two-node state; the returned map is exactly
`{"p:1" ↦ ⟨some 1, [2]⟩}`. -/
theorem c7_clients_projection_witness :
    ((((⟨"p:1", [("p:1", 1), ("s:2", 2)], [], []⟩ : SentinelState).clients.map
        Prod.fst).Nodup) ∧
      (⟨"p:1", [("p:1", 1), ("s:2", 2)], [], []⟩ : SentinelState).clients.lookup "p:1" =
        some 1) ∧
    ClientsGo ⟨"p:1", [("p:1", 1), ("s:2", 2)], [], []⟩ =
      [("p:1", ⟨some 1,
        (([("p:1", 1), ("s:2", 2)] : List (Addr × Client)).filter
          (fun e => !(e.1 == "p:1"))).map Prod.snd⟩)] :=
  ⟨⟨by decide, rfl⟩,
   c7_clients_projection ⟨"p:1", [("p:1", 1), ("s:2", 2)], [], []⟩ 1 (by decide) rfl⟩

/-- C8: `DoSecondary` (through `client(ctx, "")`) picks a client of the map
whose address is not `primAddr` whenever such an entry exists, and the
primary's own client when every entry of the map belongs to the primary. -/
theorem c8_dosecondary_selection (pf : Addr → Except Err Client) (st : SentinelState)
    (hnd : (st.clients.map Prod.fst).Nodup) :
    ((∃ e ∈ st.clients, e.1 ≠ st.primAddr) →
      ∃ e ∈ st.clients, e.1 ≠ st.primAddr ∧ (DoSecondary pf st).res = .ok e.2) ∧
    (st.clients ≠ [] → (∀ e ∈ st.clients, e.1 = st.primAddr) →
      ∃ c, st.clients.lookup st.primAddr = some c ∧ (DoSecondary pf st).res = .ok c) := by
  constructor
  · intro h
    obtain ⟨e, hs1, hs2, hs3⟩ := scanNonPrim_finds h
    have hr : clientRLock "" st = (e.1, some e.2) := by
      unfold clientRLock
      rw [if_pos rfl, hs1]
    have hres : DoSecondary pf st = ⟨.ok e.2, st, [], []⟩ := by
      unfold DoSecondary clientGo
      rw [hr]
    exact ⟨e, hs2, hs3, by rw [hres]⟩
  · intro hne hall
    obtain ⟨e, hs1, hs2⟩ := scanNonPrim_all_prim hne hall
    have heprim : e.1 = st.primAddr := hall e hs2
    have hmem : (st.primAddr, e.2) ∈ st.clients := by
      rw [← heprim]
      simpa using hs2
    have hlook : st.clients.lookup st.primAddr = some e.2 :=
      lookup_of_mem_nodup hnd hmem
    have hr : clientRLock "" st = (e.1, some e.2) := by
      unfold clientRLock
      rw [if_pos rfl, hs1]
    have hres : DoSecondary pf st = ⟨.ok e.2, st, [], []⟩ := by
      unfold DoSecondary clientGo
      rw [hr]
    exact ⟨e.2, hlook, by rw [hres]⟩

/-- C8 (witness): both selection arms: with a secondary present the action
runs on the secondary's pool 2; with only the primary present it runs on the
primary's pool 1. -/
theorem c8_dosecondary_selection_witness :
    (∃ e ∈ (⟨"p:1", [("p:1", 1), ("s:2", 2)], [], []⟩ : SentinelState).clients,
      e.1 ≠ "p:1" ∧
      (DoSecondary (fun _ => .ok 9) ⟨"p:1", [("p:1", 1), ("s:2", 2)], [], []⟩).res = .ok e.2) ∧
    (∃ c, (⟨"p:1", [("p:1", 1)], [], []⟩ : SentinelState).clients.lookup "p:1" = some c ∧
      (DoSecondary (fun _ => .ok 9) ⟨"p:1", [("p:1", 1)], [], []⟩).res = .ok c) :=
  ⟨(c8_dosecondary_selection (fun _ => .ok 9)
      ⟨"p:1", [("p:1", 1), ("s:2", 2)], [], []⟩ (by decide)).1
      ⟨("s:2", 2), by decide, by decide⟩,
   (c8_dosecondary_selection (fun _ => .ok 9)
      ⟨"p:1", [("p:1", 1)], [], []⟩ (by decide)).2
      (by decide) (by decide)⟩

/-- C6: in every reachable state after a successful bootstrap (and before
close), `primAddr` is a key of `clients`; and every committed
`ensureClients` pass publishes a `primAddr` that is a key of the `clients`
map published in the same write-lock section. -/
theorem c6_prim_in_clients :
    (∀ st, Reachable st → (st.clients.lookup st.primAddr).isSome) ∧
    (∀ (pf : Addr → Except Err Client)
        (doResp : Except Err ((List (String × String)) × (List (List (String × String)))))
        (st : SentinelState),
        (ensureClients pf doResp st).err = none →
        (ensureClients pf doResp st).committed = true ∧
        ((ensureClients pf doResp st).state.clients.lookup
          (ensureClients pf doResp st).state.primAddr).isSome) :=
  ⟨fun _ h => reachable_prim_isSome h,
   fun pf doResp st h =>
     ⟨(ensureClients_success_prim pf doResp st h).2,
      (ensureClients_success_prim pf doResp st h).1⟩⟩

/-- C6 (witness): the state reached by a concrete successful bootstrap
(`SENTINEL SENTINELS` = [], primary "h:1", no replicas, pool 5) is reachable
and satisfies the invariant, and the concrete commit publishes its primary
as a key. -/
theorem c6_prim_in_clients_witness :
    (Reachable (ensureClients (fun _ => .ok 5)
        (.ok ([("ip", "h"), ("port", "1")], []))
        (ensureSentinelAddrs "s:26379" (.ok [])
          (initialState ["s:26379"])).2).state ∧
      ((ensureClients (fun _ => .ok 5)
        (.ok ([("ip", "h"), ("port", "1")], []))
        (ensureSentinelAddrs "s:26379" (.ok [])
          (initialState ["s:26379"])).2).state.clients.lookup
        (ensureClients (fun _ => .ok 5)
          (.ok ([("ip", "h"), ("port", "1")], []))
          (ensureSentinelAddrs "s:26379" (.ok [])
            (initialState ["s:26379"])).2).state.primAddr).isSome) ∧
    ((ensureClients (fun _ => .ok 5)
        (.ok ([("ip", "h"), ("port", "1")], []))
        (ensureSentinelAddrs "s:26379" (.ok [])
          (initialState ["s:26379"])).2).err = none ∧
      (ensureClients (fun _ => .ok 5)
        (.ok ([("ip", "h"), ("port", "1")], []))
        (ensureSentinelAddrs "s:26379" (.ok [])
          (initialState ["s:26379"])).2).committed = true ∧
      ((ensureClients (fun _ => .ok 5)
        (.ok ([("ip", "h"), ("port", "1")], []))
        (ensureSentinelAddrs "s:26379" (.ok [])
          (initialState ["s:26379"])).2).state.clients.lookup
        (ensureClients (fun _ => .ok 5)
          (.ok ([("ip", "h"), ("port", "1")], []))
          (ensureSentinelAddrs "s:26379" (.ok [])
            (initialState ["s:26379"])).2).state.primAddr).isSome) :=
  ⟨⟨Reachable.boot ["s:26379"] "s:26379" (.ok []) (fun _ => .ok 5)
      (.ok ([("ip", "h"), ("port", "1")], [])) rfl rfl,
    c6_prim_in_clients.1 _
      (Reachable.boot ["s:26379"] "s:26379" (.ok []) (fun _ => .ok 5)
        (.ok ([("ip", "h"), ("port", "1")], [])) rfl rfl)⟩,
   ⟨rfl, c6_prim_in_clients.2 (fun _ => .ok 5)
     (.ok ([("ip", "h"), ("port", "1")], []))
     (ensureSentinelAddrs "s:26379" (.ok []) (initialState ["s:26379"])).2 rfl⟩⟩

/-- ClientFunc used in the C3 failing run: pool 10 for the primary "A:1",
pool 20 for the replica "B:2" (pool 99 is never requested). -/
def c3pf : Addr → Except Err Client :=
  fun a => if a = "A:1" then .ok 10 else if a = "B:2" then .ok 20 else .ok 99

/-- State after the C3 bootstrap pass: primary "A:1" ↦ pool 10, replica
"B:2" ↦ pool 20. -/
def c3State1 : SentinelState :=
  (ensureClients c3pf
    (.ok ([("ip", "A"), ("port", "1")], [[("ip", "B"), ("port", "2")]]))
    (ensureSentinelAddrs "s:26379" (.ok []) (initialState ["s:26379"])).2).state

/-- State after the second C3 pass, which reports a new replica "C:3": the
`client` addr bug binds "C:3" to the primary's pool 10 without calling
`ClientFunc`, publishing the aliased map {A:1 ↦ 10, B:2 ↦ 20, C:3 ↦ 10}. -/
def c3State2 : SentinelState :=
  (ensureClients c3pf
    (.ok ([("ip", "A"), ("port", "1")],
      [[("ip", "B"), ("port", "2")], [("ip", "C"), ("port", "3")]])) c3State1).state

/-- The third C3 pass: "C:3" disappears from the SLAVES response. -/
def c3Pass3 : EnsureClientsResult :=
  ensureClients c3pf
    (.ok ([("ip", "A"), ("port", "1")], [[("ip", "B"), ("port", "2")]])) c3State2

/-- C3: the claim — at every successful commit exactly the handles of
dropped keys are closed, each exactly once, and handles whose address is in
both the previous and the new key set are carried forward unclosed — fails
on the code.  Through the `client` addr bug (C1), the reachable state
`c3State2` maps both "A:1" and "C:3" to pool 10; the next successful commit
drops "C:3" and closes pool 10 (`toClose = [10]`) even though the entry
("A:1", 10) is carried forward into the published map: a handle whose
address is in both key sets is closed while still published (and a commit
dropping both aliased keys would close it twice).  This contradicts the
commit loop's own comment ("either move it over to newClients (if the
address is shared) or make sure it is closed") and the spec's invariant. -/
theorem c3_alias_closes_carried_forward :
    Reachable c3State2 ∧
    ("A:1", 10) ∈ c3State2.clients ∧ ("C:3", 10) ∈ c3State2.clients ∧
    c3Pass3.err = none ∧ c3Pass3.committed = true ∧
    ("A:1", 10) ∈ c3Pass3.state.clients ∧
    c3Pass3.toClose = [10] :=
  ⟨Reachable.stepEnsureClients c3State1 c3pf
      (.ok ([("ip", "A"), ("port", "1")],
        [[("ip", "B"), ("port", "2")], [("ip", "C"), ("port", "3")]]))
      (Reachable.boot ["s:26379"] "s:26379" (.ok []) c3pf
        (.ok ([("ip", "A"), ("port", "1")], [[("ip", "B"), ("port", "2")]]))
        rfl rfl),
   by decide, by decide, rfl, rfl, by decide, rfl⟩

/-- C10 (witness): a peer list holding one well-formed map and one empty map
commits without error; the set holds the queried address "s1:26379", the
peer "x:7" and the degenerate ":" from the empty map. -/
theorem c10_sentinels_no_validation_witness :
    (ensureSentinelAddrs "s1:26379" (.ok [[("ip", "x"), ("port", "7")], []]) (⟨"", [], [], []⟩ : SentinelState)).1 = none ∧
    "s1:26379" ∈ (ensureSentinelAddrs "s1:26379" (.ok [[("ip", "x"), ("port", "7")], []]) (⟨"", [], [], []⟩ : SentinelState)).2.sentinelAddrs ∧
    (∀ m ∈ ([[("ip", "x"), ("port", "7")], []] : List (List (String × String))),
        joinHostPort (mget m "ip") (mget m "port") ∈ (ensureSentinelAddrs "s1:26379" (.ok [[("ip", "x"), ("port", "7")], []]) (⟨"", [], [], []⟩ : SentinelState)).2.sentinelAddrs) ∧
    joinHostPort (mget ([] : List (String × String)) "ip")
      (mget ([] : List (String × String)) "port") = ":" :=
  c10_sentinels_no_validation "s1:26379" [[("ip", "x"), ("port", "7")], []] ⟨"", [], [], []⟩
